import Mathlib

/-
Verification development for the fibio fiber-runtime interface
(src/include/fibio/fibers/fiber.hpp).

The header provides the scheduler, the fiber handle and the current-fiber
operations.  The parts with code in the header (the sleep_for and
sleep_until templates, the implicitly declared destructor of the fiber
class, the not_a_fiber sentinel, the scheduling_policy enum) are embedded
directly from the source.  Operations that are only declared in the header
(join, detach, move bodies, get_id, the scheduler singleton, dispatch) are
modelled from the specification, and each such definition says so in its
doc comment.
-/

set_option linter.unusedVariables false

/-! ### C++ chrono embedding -/

/-- Modulus of the C++ type uint64_t. -/
def UINT64_MOD : Nat := 18446744073709551616

/-- C++ implicit conversion of a signed integer value to uint64_t: reduction
modulo 2^64, landing in [0, 2^64). -/
def toUint64 (i : Int) : Nat := (i % (UINT64_MOD : Int)).toNat

/-- A std::chrono::duration value: tick count of signed integral type, with
period num/den seconds (std::ratio keeps den positive). -/
structure CppDuration where
  count : Int
  num : Int
  den : Int
deriving DecidableEq

/-- Embeds duration_cast to std::chrono::microseconds followed by count():
the exact rational number of microseconds, count * num * 10^6 / den,
truncated toward zero, which is what the C++ integer arithmetic of
duration_cast computes. -/
def duration_cast_micro (d : CppDuration) : Int :=
  Int.tdiv (d.count * d.num * 1000000) d.den

/-- Observable behaviour of a sleep request: immediate return, or a reactor
timer registered for the given number of microseconds. -/
inductive SleepBehavior
  | immediate
  | timer (usec : Nat)
deriving DecidableEq

/-- Modelled from the spec: this_fiber::detail::sleep_usec (declared at
fiber.hpp:234, body not under src).  Per the spec, sleeping registers a
timer with the owning scheduler's reactor and suspends the calling fiber
until the timer fires; a request that asks for no delay returns immediately
without suspending past the current scheduling point. -/
def sleep_usec (usec : Nat) : SleepBehavior :=
  if usec = 0 then SleepBehavior.immediate else SleepBehavior.timer usec

/-- The uint64_t argument the sleep_for template (fiber.hpp:261-264) passes
to sleep_usec: the signed microsecond count of the duration, implicitly
converted to uint64_t at the call. -/
def sleep_for_arg (d : CppDuration) : Nat := toUint64 (duration_cast_micro d)

/-- Behaviour of this_fiber::sleep_for on a duration. -/
def sleep_for (d : CppDuration) : SleepBehavior := sleep_usec (sleep_for_arg d)

/-- Subtraction of a steady_clock time point (modelled as a duration since
the epoch) from another with the same period, as C++ operator- computes. -/
def tp_sub (t now : CppDuration) : CppDuration :=
  CppDuration.mk (t.count - now.count) t.num t.den

/-- The uint64_t argument the sleep_until template (fiber.hpp:269-272)
passes to sleep_usec: the microsecond count of sleep_time minus
steady_clock::now(), implicitly converted to uint64_t at the call. -/
def sleep_until_arg (now t : CppDuration) : Nat :=
  toUint64 (Int.tdiv ((t.count - now.count) * t.num * 1000000) t.den)

/-- Behaviour of this_fiber::sleep_until given the current time now. -/
def sleep_until (now t : CppDuration) : SleepBehavior :=
  sleep_usec (sleep_until_arg now t)

/-! ### Claim C2: non-positive durations -/

/-- C2: the claim states that sleep_for on every non-positive duration
returns immediately.  Evaluating the embedded code at the failing input
d = -1 second (tick count -1, period 1/1 seconds): duration_cast yields the
microsecond count -1000000, the implicit conversion to uint64_t wraps it to
2^64 - 10^6, and sleep_usec is asked for an astronomically long timer
instead of returning immediately.  sleep_until with a target one second
before the current time passes the same wrapped value. -/
theorem sleep_for_negative_duration_wraps :
    sleep_for_arg (CppDuration.mk (-1) 1 1) = 18446744073708551616 ∧
    sleep_for (CppDuration.mk (-1) 1 1) =
      SleepBehavior.timer 18446744073708551616 ∧
    sleep_for (CppDuration.mk (-1) 1 1) ≠ SleepBehavior.immediate ∧
    sleep_until_arg (CppDuration.mk 5 1 1) (CppDuration.mk 4 1 1) =
      18446744073708551616 := by
  refine ⟨by decide, by decide, by decide, by decide⟩

/-! ### Claim C9: sleep_until reduces to sleep_for -/

/-- C9: sleep_until on target t with current steady_clock time now performs
exactly the call sleep_for performs on the remaining duration t - now: both
reduce to the same call of sleep_usec on the microsecond count of that
duration. -/
theorem sleep_until_refines_sleep_for (now t : CppDuration) :
    sleep_until_arg now t = sleep_for_arg (tp_sub t now) ∧
    sleep_until now t = sleep_for (tp_sub t now) :=
  ⟨rfl, rfl⟩

/-! ### Claim C10: truncation of sub-microsecond durations -/

/-- C10: duration_cast truncates toward zero, so every duration whose exact
microsecond value lies strictly between 0 and 1 (that is,
0 < count * num * 10^6 < den) is cast to the microsecond count 0, and
sleep_for passes 0 to sleep_usec, behaving exactly as sleep_for on the zero
duration does. -/
theorem sleep_for_truncates_submicrosecond (d : CppDuration)
    (hpos : 0 < d.count * d.num * 1000000)
    (hlt : d.count * d.num * 1000000 < d.den) :
    duration_cast_micro d = 0 ∧ sleep_for_arg d = 0 ∧
    sleep_for d = sleep_for (CppDuration.mk 0 1 1) := by
  have h0 : duration_cast_micro d = 0 :=
    Int.tdiv_eq_zero_of_lt (le_of_lt hpos) hlt
  refine ⟨h0, ?_, ?_⟩
  · simp [sleep_for_arg, h0, toUint64]
  · simp [sleep_for, sleep_for_arg, h0, toUint64]
    rfl

/-- Witness for C10 at the concrete duration 500 nanoseconds (tick count
500, period 1/10^9 seconds). -/
theorem sleep_for_truncates_submicrosecond_witness :
    (0 : Int) < 500 * 1 * 1000000 ∧ (500 * 1 * 1000000 : Int) < 1000000000 ∧
    sleep_for_arg (CppDuration.mk 500 1 1000000000) = 0 ∧
    sleep_for (CppDuration.mk 500 1 1000000000) =
      sleep_for (CppDuration.mk 0 1 1) :=
  ⟨by decide, by decide,
   (sleep_for_truncates_submicrosecond (CppDuration.mk 500 1 1000000000)
      (by decide) (by decide)).2.1,
   (sleep_for_truncates_submicrosecond (CppDuration.mk 500 1 1000000000)
      (by decide) (by decide)).2.2⟩

/-! ### Fiber handle model -/

/-- Embeds the scheduling_policy enum of fiber::attributes
(fiber.hpp:87-97): normal fibers migrate freely across worker threads,
stick_with_parent fibers always run on the same worker thread as their
parent. -/
inductive scheduling_policy
  | normal
  | stick_with_parent
deriving DecidableEq

/-- Embeds the sentinel constexpr fiber::id not_a_fiber = 0
(fiber.hpp:230). -/
def not_a_fiber : Nat := 0

/-- Modelled from the spec: the view of a fiber execution unit a handle
needs at join time, once the unit has finished: its id and its
result-or-failure slot (none when the task returned normally, some f when
it finished via the uncaught failure f). -/
structure FiberRef where
  id : Nat
  failure : Option Nat
deriving DecidableEq

/-- A fiber handle owns zero or one execution-unit reference; a
default-constructed, moved-from, joined or detached handle holds none. -/
abbrev Handle := Option FiberRef

/-- Modelled from the spec: fiber::joinable (declared fiber.hpp:182, body
not under src) is true iff the handle currently references a unit that has
not been joined or detached. -/
def joinable (h : Handle) : Bool := h.isSome

/-- Outcome of a join or detach call. -/
inductive JoinOutcome
  | invalidState
  | raised (f : Nat)
  | ok
deriving DecidableEq

/-- Modelled from the spec: fiber::join (declared fiber.hpp:197, body not
under src).  On a non-joinable handle it fails with InvalidState and leaves
the handle unchanged.  Otherwise it waits for the unit to finish, releases
ownership (the handle becomes empty), and re-raises the captured failure
exactly when propagate is true and the unit finished via an uncaught
failure; in every other case it returns normally and the failure, if any,
is discarded. -/
def fiber_join (propagate : Bool) (h : Handle) : JoinOutcome × Handle :=
  match h with
  | none => (JoinOutcome.invalidState, none)
  | some u =>
    match propagate, u.failure with
    | true, some f => (JoinOutcome.raised f, none)
    | true, none => (JoinOutcome.ok, none)
    | false, _ => (JoinOutcome.ok, none)

/-- Modelled from the spec: fiber::detach (declared fiber.hpp:202, body not
under src).  On a non-joinable handle it fails with InvalidState and leaves
the handle unchanged; otherwise it releases the handle's reference without
waiting and the handle becomes empty. -/
def fiber_detach (h : Handle) : JoinOutcome × Handle :=
  match h with
  | none => (JoinOutcome.invalidState, none)
  | some _ => (JoinOutcome.ok, none)

/-- Modelled from the source documentation of the move constructor
(fiber.hpp:109-115, body not under src): the new handle takes over the
unit reference of other, and after the call other no longer represents a
fiber of execution.  Returns (constructed handle, moved-from source). -/
def fiber_move_ctor (other : Handle) : Handle × Handle := (other, none)

/-- Outcome of a move assignment. -/
inductive AssignOutcome
  | terminated
  | assigned (dest src : Handle)
deriving DecidableEq

/-- Modelled from the source documentation of move assignment
(fiber.hpp:173-177, body not under src): if the destination still has an
associated running fiber, that is joinable() is true, std::terminate() is
called; otherwise the unit reference is transferred and the source is left
empty. -/
def fiber_move_assign (dest other : Handle) : AssignOutcome :=
  if joinable dest then AssignOutcome.terminated
  else AssignOutcome.assigned other none

/-- Outcome of running the fiber destructor. -/
inductive DtorOutcome
  | terminate
  | released
deriving DecidableEq

/-- Embeds the destructor of the fiber class: the class definition
(fiber.hpp:68-228) declares no destructor, so the implicitly declared
destructor runs, destroying the data_ and impl_ smart-pointer members.  It
releases the handle's references unconditionally, with no joinable() check
and no call to std::terminate. -/
def fiber_dtor (h : Handle) : DtorOutcome := DtorOutcome.released

/-! ### Claim C1: join and detach on a non-joinable handle -/

/-- C1: on every handle with joinable() false, join fails with InvalidState
for either value of propagate, detach fails with InvalidState, and neither
call changes the handle's state. -/
theorem join_detach_non_joinable_invalid_state (p : Bool) (h : Handle)
    (hnj : joinable h = false) :
    fiber_join p h = (JoinOutcome.invalidState, h) ∧
    fiber_detach h = (JoinOutcome.invalidState, h) := by
  cases h with
  | none => exact ⟨rfl, rfl⟩
  | some u => simp [joinable] at hnj

/-- Witness for C1 at the concrete non-joinable (default-constructed)
handle. -/
theorem join_detach_non_joinable_invalid_state_witness :
    joinable (none : Handle) = false ∧
    (fiber_join true (none : Handle) = (JoinOutcome.invalidState, none) ∧
     fiber_detach (none : Handle) = (JoinOutcome.invalidState, none)) :=
  ⟨rfl, join_detach_non_joinable_invalid_state true none rfl⟩

/-! ### Claim C3: move transfers joinability -/

/-- C3: move construction makes the destination exactly as joinable as the
source was and leaves the source non-joinable; move assignment onto a
non-joinable destination (the only case in which it completes, see C4) does
the same. -/
theorem move_transfers_joinability (src dest : Handle)
    (hd : joinable dest = false) :
    (joinable (fiber_move_ctor src).1 = joinable src ∧
     joinable (fiber_move_ctor src).2 = false) ∧
    fiber_move_assign dest src = AssignOutcome.assigned src none ∧
    joinable (none : Handle) = false := by
  refine ⟨⟨rfl, rfl⟩, ?_, rfl⟩
  simp [fiber_move_assign, hd]

/-- Witness for C3: moving a joinable handle into a default-constructed
one. -/
theorem move_transfers_joinability_witness :
    joinable (none : Handle) = false ∧
    joinable (fiber_move_ctor (some (FiberRef.mk 1 none))).1 =
      joinable (some (FiberRef.mk 1 none) : Handle) ∧
    joinable (fiber_move_ctor (some (FiberRef.mk 1 none))).2 = false ∧
    fiber_move_assign (none : Handle) (some (FiberRef.mk 1 none)) =
      AssignOutcome.assigned (some (FiberRef.mk 1 none)) none :=
  ⟨rfl,
   (move_transfers_joinability (some (FiberRef.mk 1 none)) none rfl).1.1,
   (move_transfers_joinability (some (FiberRef.mk 1 none)) none rfl).1.2,
   (move_transfers_joinability (some (FiberRef.mk 1 none)) none rfl).2.1⟩

/-! ### Claim C4: destroying or assigning over a joinable handle -/

/-- C4 counterexample: the claim states that destroying a still-joinable
handle terminates the process; but the fiber class declares no destructor,
so at the concrete joinable handle holding unit 1 the implicit destructor
silently releases the references and does not call std::terminate. -/
theorem destroy_joinable_does_not_terminate :
    joinable (some (FiberRef.mk 1 none)) = true ∧
    fiber_dtor (some (FiberRef.mk 1 none)) = DtorOutcome.released ∧
    fiber_dtor (some (FiberRef.mk 1 none)) ≠ DtorOutcome.terminate := by
  refine ⟨rfl, rfl, by decide⟩

/-- C4 amended: move-assigning onto a still-joinable handle calls
std::terminate, exactly as documented; destroying a still-joinable handle,
by contrast, performs no check and silently releases the handle's
references. -/
theorem assign_over_joinable_terminates (dest src : Handle)
    (hj : joinable dest = true) :
    fiber_move_assign dest src = AssignOutcome.terminated ∧
    fiber_dtor dest = DtorOutcome.released := by
  refine ⟨?_, rfl⟩
  simp [fiber_move_assign, hj]

/-- Witness for the amended C4 at a concrete joinable destination. -/
theorem assign_over_joinable_terminates_witness :
    joinable (some (FiberRef.mk 2 none)) = true ∧
    (fiber_move_assign (some (FiberRef.mk 2 none)) (none : Handle) =
       AssignOutcome.terminated ∧
     fiber_dtor (some (FiberRef.mk 2 none)) = DtorOutcome.released) :=
  ⟨rfl, assign_over_joinable_terminates (some (FiberRef.mk 2 none)) none rfl⟩

/-! ### Claim C5: failure propagation through join -/

/-- C5: on a joinable handle whose unit finished, join with propagate true
re-raises the captured failure when there is one, join with the default
propagate false returns normally discarding it, and in every case the
handle is left non-joinable. -/
theorem join_propagates_failure (u : FiberRef) :
    (∀ f, u.failure = some f →
       fiber_join true (some u) = (JoinOutcome.raised f, none)) ∧
    (u.failure = none → fiber_join true (some u) = (JoinOutcome.ok, none)) ∧
    fiber_join false (some u) = (JoinOutcome.ok, none) ∧
    (∀ p, joinable (fiber_join p (some u)).2 = false) := by
  refine ⟨?_, ?_, rfl, ?_⟩
  · intro f hf
    simp [fiber_join, hf]
  · intro hf
    simp [fiber_join, hf]
  · intro p
    cases p <;> cases hu : u.failure <;> simp [fiber_join, hu, joinable]

/-- Witness for C5 at a concrete unit that finished via failure 7. -/
theorem join_propagates_failure_witness :
    (FiberRef.mk 1 (some 7)).failure = some 7 ∧
    fiber_join true (some (FiberRef.mk 1 (some 7))) =
      (JoinOutcome.raised 7, none) ∧
    fiber_join false (some (FiberRef.mk 1 (some 7))) =
      (JoinOutcome.ok, none) ∧
    joinable (fiber_join true (some (FiberRef.mk 1 (some 7)))).2 = false :=
  ⟨rfl,
   (join_propagates_failure (FiberRef.mk 1 (some 7))).1 7 rfl,
   (join_propagates_failure (FiberRef.mk 1 (some 7))).2.2.1,
   (join_propagates_failure (FiberRef.mk 1 (some 7))).2.2.2 true⟩

/-! ### Claim C6: get_id and id uniqueness -/

/-- Modelled from the spec: fiber::get_id (declared fiber.hpp:187, body not
under src) returns the referenced unit's id, or the reserved not_a_fiber
sentinel for an empty handle. -/
def fiber_get_id (h : Handle) : Nat :=
  match h with
  | none => not_a_fiber
  | some u => u.id

/-- Modelled from the spec: the scheduler's id bookkeeping.  Unit ids are
monotonically assigned with 0 reserved as the no-fiber sentinel; live holds
the ids of all currently live units, counter the last id handed out. -/
structure Registry where
  counter : Nat
  live : List Nat
deriving DecidableEq

/-- Initial registry: no unit has been created. -/
def Registry.base : Registry := Registry.mk 0 []

/-- Modelled from the spec: creating a unit assigns the next id, one past
the last handed out, and adds it to the live set. -/
def Registry.spawn (st : Registry) : Nat × Registry :=
  (st.counter + 1, Registry.mk (st.counter + 1) ((st.counter + 1) :: st.live))

/-- Modelled from the spec: a unit that reaches the finished state and is
reclaimed leaves the live set. -/
def Registry.finish (st : Registry) (i : Nat) : Registry :=
  Registry.mk st.counter (st.live.erase i)

/-- Registries reachable from the initial one by spawning and finishing
units. -/
inductive Registry.Reachable : Registry → Prop
  | base : Registry.Reachable Registry.base
  | spawn {st : Registry} : Registry.Reachable st →
      Registry.Reachable (st.spawn).2
  | finish {st : Registry} (i : Nat) : Registry.Reachable st →
      Registry.Reachable (st.finish i)

/-- Helper invariant: in every reachable registry, every live id is
positive and at most the counter, and the live ids are pairwise
distinct. -/
theorem registry_reachable_inv {st : Registry} (h : Registry.Reachable st) :
    (∀ i ∈ st.live, 0 < i ∧ i ≤ st.counter) ∧ st.live.Nodup := by
  induction h with
  | base => exact ⟨fun i hi => (nomatch hi), List.nodup_nil⟩
  | spawn hr ih =>
    obtain ⟨hb, hnd⟩ := ih
    constructor
    · intro i hi
      rcases List.mem_cons.mp hi with hEq | hMem
      · exact hEq ▸ ⟨Nat.succ_pos _, Nat.le_refl _⟩
      · exact ⟨(hb i hMem).1, Nat.le_succ_of_le (hb i hMem).2⟩
    · refine List.nodup_cons.mpr ⟨?_, hnd⟩
      intro hmem
      exact absurd ((hb _ hmem).2) (Nat.not_succ_le_self _)
  | finish i hr ih =>
    obtain ⟨hb, hnd⟩ := ih
    exact ⟨fun j hj => hb j (List.mem_of_mem_erase hj), hnd.erase i⟩

/-- C6: get_id returns the unit's id on a non-empty handle and the reserved
sentinel 0 on an empty handle, and in every reachable registry the live
unit ids are all non-zero and pairwise distinct. -/
theorem get_id_and_live_id_uniqueness (u : FiberRef) (st : Registry)
    (hr : Registry.Reachable st) :
    fiber_get_id none = not_a_fiber ∧ not_a_fiber = 0 ∧
    fiber_get_id (some u) = u.id ∧
    (∀ i ∈ st.live, i ≠ 0) ∧ st.live.Nodup := by
  obtain ⟨hb, hnd⟩ := registry_reachable_inv hr
  exact ⟨rfl, rfl, rfl, fun i hi => Nat.pos_iff_ne_zero.mp (hb i hi).1, hnd⟩

/-- Witness for C6 at a concrete handle and the registry reached by one
spawn. -/
theorem get_id_and_live_id_uniqueness_witness :
    Registry.Reachable (Registry.base.spawn).2 ∧
    fiber_get_id (some (FiberRef.mk 7 none)) = 7 ∧
    fiber_get_id none = not_a_fiber ∧
    (Registry.base.spawn).2.live.Nodup :=
  ⟨Registry.Reachable.spawn Registry.Reachable.base,
   (get_id_and_live_id_uniqueness (FiberRef.mk 7 none) (Registry.base.spawn).2
      (Registry.Reachable.spawn Registry.Reachable.base)).2.2.1,
   (get_id_and_live_id_uniqueness (FiberRef.mk 7 none) (Registry.base.spawn).2
      (Registry.Reachable.spawn Registry.Reachable.base)).1,
   (get_id_and_live_id_uniqueness (FiberRef.mk 7 none) (Registry.base.spawn).2
      (Registry.Reachable.spawn Registry.Reachable.base)).2.2.2.2⟩

/-! ### Claim C7: the scheduler singleton -/

/-- Modelled from the spec: the process-wide default scheduler state.  The
current field holds the identity tag of the currently installed singleton
scheduler_object, if any; next is the tag the next construction will use.
Each scheduler_object owns its own io_service, so two scheduler handles
return reference-equal reactors from get_io_service exactly when their tags
are equal. -/
structure SingletonState where
  next : Nat
  current : Option Nat
deriving DecidableEq

/-- Process start: no singleton constructed yet. -/
def SingletonState.base : SingletonState := SingletonState.mk 1 none

/-- Modelled from the spec: scheduler::get_instance (declared fiber.hpp:51,
body not under src) lazily constructs the process-wide default scheduler on
first use and afterwards returns a handle sharing the same underlying
scheduler_object.  Returns the tag of the scheduler handed out together
with the new state. -/
def get_instance (g : SingletonState) : Nat × SingletonState :=
  match g.current with
  | some t => (t, g)
  | none => (g.next, SingletonState.mk (g.next + 1) (some g.next))

/-- Modelled from the spec: scheduler::reset_instance (declared
fiber.hpp:56, body not under src) releases the process-wide reference, so a
later get_instance constructs afresh. -/
def reset_instance (g : SingletonState) : SingletonState :=
  SingletonState.mk g.next none

/-- Identity of the reactor returned by scheduler::get_io_service
(fiber.hpp:31) for the scheduler_object with the given tag: each object
owns one io_service, so reactor identity is object identity. -/
def get_io_service (tag : Nat) : Nat := tag

/-- C7: two get_instance calls with no intervening reset_instance return
handles to the same scheduler instance, observable as reference-equal
reactors from get_io_service; and after reset_instance a later
get_instance constructs a distinct instance, exhibited from the initial
process state. -/
theorem get_instance_singleton :
    (∀ g : SingletonState,
       (get_instance g).1 = (get_instance (get_instance g).2).1 ∧
       get_io_service (get_instance g).1 =
         get_io_service (get_instance (get_instance g).2).1) ∧
    (get_instance (reset_instance (get_instance SingletonState.base).2)).1 ≠
      (get_instance SingletonState.base).1 := by
  constructor
  · intro g
    rcases g with ⟨n, c⟩
    cases c <;> simp [get_instance, get_io_service]
  · decide

/-! ### Claim C8: thread affinity of pinned fibers -/

/-- Pointwise update of a function at one thread index. -/
def upd {α : Type} (f : Nat → α) (T : Nat) (v : α) : Nat → α :=
  fun S => if S = T then v else f S

/-- Reading an updated function at the updated index. -/
theorem upd_eq {α : Type} (f : Nat → α) {S T : Nat} (v : α) (h : S = T) :
    upd f T v S = v := by
  simp [upd, h]

/-- Reading an updated function elsewhere. -/
theorem upd_ne {α : Type} (f : Nat → α) {S T : Nat} (v : α) (h : ¬ S = T) :
    upd f T v S = f S := by
  simp [upd, h]

/-- Modelled from the spec: the dispatch state of the scheduler.  Each
worker thread T runs at most one unit at a time (running T), owns a private
run queue of pinned units (privq T), and all threads share the global run
queue of freely scheduled units. -/
structure SchedState where
  running : Nat → Option Nat
  privq : Nat → List Nat
  globalq : List Nat

/-- Scheduler state at start: nothing runs, all queues empty. -/
def SchedState.base : SchedState :=
  SchedState.mk (fun _ => none) (fun _ => []) []

/-- Modelled from the spec: one dispatch-loop transition of the scheduler,
for a fixed policy map pol assigning each unit its designated thread (some
T for a stick_with_parent unit created on thread T, none for a normal
unit).  A spawned or yielded unit is routed by its own policy: pinned units
enter only their designated thread's private queue, free units enter only
the global queue.  A worker drains its private queue first and pulls from
the global queue only when its private queue is empty. -/
inductive SchedStep (pol : Nat → Option Nat) : SchedState → SchedState → Prop
  | spawn_pinned {st : SchedState} (T u : Nat) (hp : pol u = some T) :
      SchedStep pol st
        { st with privq := upd st.privq T (st.privq T ++ [u]) }
  | spawn_free {st : SchedState} (u : Nat) (hp : pol u = none) :
      SchedStep pol st { st with globalq := st.globalq ++ [u] }
  | dispatch_priv {st : SchedState} (T u : Nat) (q : List Nat)
      (hq : st.privq T = u :: q) (hr : st.running T = none) :
      SchedStep pol st
        { st with running := upd st.running T (some u),
                  privq := upd st.privq T q }
  | dispatch_global {st : SchedState} (T u : Nat) (q : List Nat)
      (hpq : st.privq T = []) (hq : st.globalq = u :: q)
      (hr : st.running T = none) :
      SchedStep pol st
        { st with running := upd st.running T (some u), globalq := q }
  | yield_pinned {st : SchedState} (T u T0 : Nat) (hr : st.running T = some u)
      (hp : pol u = some T0) :
      SchedStep pol st
        { st with running := upd st.running T none,
                  privq := upd st.privq T0 (st.privq T0 ++ [u]) }
  | yield_free {st : SchedState} (T u : Nat) (hr : st.running T = some u)
      (hp : pol u = none) :
      SchedStep pol st
        { st with running := upd st.running T none,
                  globalq := st.globalq ++ [u] }
  | finish_unit {st : SchedState} (T u : Nat) (hr : st.running T = some u) :
      SchedStep pol st { st with running := upd st.running T none }

/-- Scheduler states reachable from the start state. -/
inductive SchedReach (pol : Nat → Option Nat) : SchedState → Prop
  | base : SchedReach pol SchedState.base
  | step {s t : SchedState} : SchedReach pol s → SchedStep pol s t →
      SchedReach pol t

/-- Helper invariant: a pinned unit is only ever running on, or queued at,
its designated thread, and the global queue holds only free units. -/
def PinnedAff (pol : Nat → Option Nat) (st : SchedState) : Prop :=
  (∀ T u T0, st.running T = some u → pol u = some T0 → T = T0) ∧
  (∀ T u T0, u ∈ st.privq T → pol u = some T0 → T = T0) ∧
  (∀ u, u ∈ st.globalq → pol u = none)

/-- Helper: every scheduler step preserves the affinity invariant. -/
theorem pinned_aff_step {pol : Nat → Option Nat} {s t : SchedState}
    (hs : PinnedAff pol s) (hstep : SchedStep pol s t) : PinnedAff pol t := by
  obtain ⟨hrun, hpriv, hglob⟩ := hs
  cases hstep with
  | spawn_pinned T u hp =>
    refine ⟨hrun, ?_, hglob⟩
    intro S v T0 hv hpv
    replace hv : v ∈ upd s.privq T (s.privq T ++ [u]) S := hv
    by_cases hST : S = T
    · rw [upd_eq _ _ hST] at hv
      rcases List.mem_append.mp hv with hm | hm
      · exact hST.trans (hpriv T v T0 hm hpv)
      · have hvu : v = u := List.mem_singleton.mp hm
        rw [hvu] at hpv
        exact hST.trans (Option.some.inj (hp.symm.trans hpv))
    · rw [upd_ne _ _ hST] at hv
      exact hpriv S v T0 hv hpv
  | spawn_free u hp =>
    refine ⟨hrun, hpriv, ?_⟩
    intro v hv
    rcases List.mem_append.mp hv with hm | hm
    · exact hglob v hm
    · exact (List.mem_singleton.mp hm) ▸ hp
  | dispatch_priv T u q hq hr =>
    refine ⟨?_, ?_, hglob⟩
    · intro S v T0 hv hpv
      replace hv : upd s.running T (some u) S = some v := hv
      by_cases hST : S = T
      · rw [upd_eq _ _ hST] at hv
        have huv : u = v := Option.some.inj hv
        rw [← huv] at hpv
        exact hST.trans (hpriv T u T0 (by rw [hq]; exact List.mem_cons_self u q) hpv)
      · rw [upd_ne _ _ hST] at hv
        exact hrun S v T0 hv hpv
    · intro S v T0 hv hpv
      replace hv : v ∈ upd s.privq T q S := hv
      by_cases hST : S = T
      · rw [upd_eq _ _ hST] at hv
        exact hST.trans
          (hpriv T v T0 (by rw [hq]; exact List.mem_cons_of_mem u hv) hpv)
      · rw [upd_ne _ _ hST] at hv
        exact hpriv S v T0 hv hpv
  | dispatch_global T u q hpq hq hr =>
    refine ⟨?_, hpriv, ?_⟩
    · intro S v T0 hv hpv
      replace hv : upd s.running T (some u) S = some v := hv
      by_cases hST : S = T
      · rw [upd_eq _ _ hST] at hv
        have huv : u = v := Option.some.inj hv
        rw [← huv] at hpv
        have hfree : pol u = none :=
          hglob u (by rw [hq]; exact List.mem_cons_self u q)
        rw [hfree] at hpv
        exact (nomatch hpv)
      · rw [upd_ne _ _ hST] at hv
        exact hrun S v T0 hv hpv
    · intro v hv
      exact hglob v (by rw [hq]; exact List.mem_cons_of_mem u hv)
  | yield_pinned T u T0 hr hp =>
    refine ⟨?_, ?_, hglob⟩
    · intro S v T1 hv hpv
      replace hv : upd s.running T none S = some v := hv
      by_cases hST : S = T
      · rw [upd_eq _ _ hST] at hv
        exact (nomatch hv)
      · rw [upd_ne _ _ hST] at hv
        exact hrun S v T1 hv hpv
    · intro S v T1 hv hpv
      replace hv : v ∈ upd s.privq T0 (s.privq T0 ++ [u]) S := hv
      by_cases hST : S = T0
      · rw [upd_eq _ _ hST] at hv
        rcases List.mem_append.mp hv with hm | hm
        · exact hST.trans (hpriv T0 v T1 hm hpv)
        · have hvu : v = u := List.mem_singleton.mp hm
          rw [hvu] at hpv
          exact hST.trans (Option.some.inj (hp.symm.trans hpv))
      · rw [upd_ne _ _ hST] at hv
        exact hpriv S v T1 hv hpv
  | yield_free T u hr hp =>
    refine ⟨?_, hpriv, ?_⟩
    · intro S v T1 hv hpv
      replace hv : upd s.running T none S = some v := hv
      by_cases hST : S = T
      · rw [upd_eq _ _ hST] at hv
        exact (nomatch hv)
      · rw [upd_ne _ _ hST] at hv
        exact hrun S v T1 hv hpv
    · intro v hv
      rcases List.mem_append.mp hv with hm | hm
      · exact hglob v hm
      · exact (List.mem_singleton.mp hm) ▸ hp
  | finish_unit T u hr =>
    refine ⟨?_, hpriv, hglob⟩
    intro S v T1 hv hpv
    replace hv : upd s.running T none S = some v := hv
    by_cases hST : S = T
    · rw [upd_eq _ _ hST] at hv
      exact (nomatch hv)
    · rw [upd_ne _ _ hST] at hv
      exact hrun S v T1 hv hpv


/-- Helper: the affinity invariant holds in every reachable scheduler
state. -/
theorem sched_reach_aff {pol : Nat → Option Nat} {st : SchedState}
    (h : SchedReach pol st) : PinnedAff pol st := by
  induction h with
  | base =>
    refine ⟨?_, ?_, ?_⟩
    · intro T u T0 hv hpv
      exact (nomatch hv)
    · intro T u T0 hv hpv
      exact (nomatch hv)
    · intro u hv
      exact (nomatch hv)
  | step hr hstep ih => exact pinned_aff_step ih hstep

/-- C8: in every reachable scheduler state, a unit pinned by the
stick_with_parent policy runs only on its designated worker thread, and a
worker thread runs at most one unit at a time, so two pinned units sharing
a thread, or a pinned unit and code its designated thread executes
directly, never have overlapping execution. -/
theorem pinned_policy_thread_affinity (pol : Nat → Option Nat)
    (st : SchedState) (h : SchedReach pol st) :
    (∀ T u T0, st.running T = some u → pol u = some T0 → T = T0) ∧
    (∀ T u v, st.running T = some u → st.running T = some v → u = v) := by
  refine ⟨(sched_reach_aff h).1, ?_⟩
  intro T u v hu hv
  rw [hu] at hv
  exact Option.some.inj hv

/-- Concrete policy for the C8 witness: unit 1 is pinned to thread 0,
everything else is free. -/
def polW : Nat → Option Nat := fun u => if u = 1 then some 0 else none

/-- Intermediate state for the C8 witness: unit 1 spawned pinned on
thread 0. -/
def stW1 : SchedState :=
  { SchedState.base with
      privq := upd SchedState.base.privq 0 (SchedState.base.privq 0 ++ [1]) }

/-- Final state for the C8 witness: thread 0 dispatched unit 1 from its
private queue and is running it. -/
def stW : SchedState :=
  { stW1 with running := upd stW1.running 0 (some 1),
              privq := upd stW1.privq 0 [] }

/-- Witness for C8: the concrete state stW is reachable, thread 0 is
running the pinned unit 1 there, and the theorem applies. -/
theorem pinned_policy_thread_affinity_witness :
    stW.running 0 = some 1 ∧ polW 1 = some 0 ∧ (0 : Nat) = 0 :=
  have h1 : SchedStep polW SchedState.base stW1 :=
    SchedStep.spawn_pinned 0 1 rfl
  have h2 : SchedStep polW stW1 stW :=
    SchedStep.dispatch_priv 0 1 [] rfl rfl
  have hreach : SchedReach polW stW :=
    SchedReach.step (SchedReach.step (SchedReach.base) h1) h2
  ⟨rfl, rfl,
   (pinned_policy_thread_affinity polW stW hreach).1 0 1 0 rfl rfl⟩
